import Mathlib

/-!
Verification of the `callAPI` HTTP request helper (src/src/callAPI.ts).

The module consists of a URL builder (`buildUrl`), a response processor
(`processResponse`), an orchestrating request executor (`callApi`) and an
error taxonomy (`NetworkError`, `ApiResponseError`, `TimeoutError`).  The
development below is a shallow embedding of that module:

* JavaScript values that flow through the helper (request bodies, decoded
  payloads) are modelled by the inductive type `Json`; JS truthiness and
  `JSON.stringify` are modelled by `Json.truthy` and `Json.stringify`.
* The platform transport (`fetch` together with its abort signal and the
  per-request timer) is modelled as an oracle `Request → FetchOutcome`
  deciding, for each outgoing request, whether a response arrives before
  the timer fires (`success`), the transport fails natively
  (`netFailure`), or the timer wins the race (`hang`, in which case the
  request is aborted and `fetch` rejects with a DOMException named
  "AbortError").
* The platform `Response` object is modelled by `HttpResponse`, carrying
  the status, the declared content type, and the outcomes of its two
  body-decode operations (`jsonBody = none` models a failing
  `response.json()`, `textBody` the result of `response.text()`).
* `console.debug` emissions, outbound network traffic and callback
  invocations are observable outputs, collected in `CallResult` as a
  `logs` channel (the console sink) and a `trace` of `Event`s (network
  and callback activity).

Numbers are modelled as integers (no claim depends on float formatting),
and JS objects (headers, query parameters) as association lists whose
order is the object's enumeration order.
-/

namespace CallAPI

/-- Json models the JavaScript values (`unknown`) that the helper
serializes and decodes: `null`, booleans, numbers, strings, arrays and
objects. -/
inductive Json where
  | null
  | bool (b : Bool)
  | num (n : Int)
  | str (s : String)
  | arr (elems : List Json)
  | obj (fields : List (String × Json))

mutual

/-- Decidable equality for `Json` (hand-rolled because the deriving
handler does not support the nested `List Json` occurrence). -/
def Json.decEq : (a b : Json) → Decidable (a = b)
  | .null, .null => isTrue rfl
  | .null, .bool _ => isFalse (fun h => Json.noConfusion h)
  | .null, .num _ => isFalse (fun h => Json.noConfusion h)
  | .null, .str _ => isFalse (fun h => Json.noConfusion h)
  | .null, .arr _ => isFalse (fun h => Json.noConfusion h)
  | .null, .obj _ => isFalse (fun h => Json.noConfusion h)
  | .bool _, .null => isFalse (fun h => Json.noConfusion h)
  | .bool a, .bool b =>
    if h : a = b then isTrue (by rw [h])
    else isFalse (fun hh => h (Json.bool.inj hh))
  | .bool _, .num _ => isFalse (fun h => Json.noConfusion h)
  | .bool _, .str _ => isFalse (fun h => Json.noConfusion h)
  | .bool _, .arr _ => isFalse (fun h => Json.noConfusion h)
  | .bool _, .obj _ => isFalse (fun h => Json.noConfusion h)
  | .num _, .null => isFalse (fun h => Json.noConfusion h)
  | .num _, .bool _ => isFalse (fun h => Json.noConfusion h)
  | .num a, .num b =>
    if h : a = b then isTrue (by rw [h])
    else isFalse (fun hh => h (Json.num.inj hh))
  | .num _, .str _ => isFalse (fun h => Json.noConfusion h)
  | .num _, .arr _ => isFalse (fun h => Json.noConfusion h)
  | .num _, .obj _ => isFalse (fun h => Json.noConfusion h)
  | .str _, .null => isFalse (fun h => Json.noConfusion h)
  | .str _, .bool _ => isFalse (fun h => Json.noConfusion h)
  | .str _, .num _ => isFalse (fun h => Json.noConfusion h)
  | .str a, .str b =>
    if h : a = b then isTrue (by rw [h])
    else isFalse (fun hh => h (Json.str.inj hh))
  | .str _, .arr _ => isFalse (fun h => Json.noConfusion h)
  | .str _, .obj _ => isFalse (fun h => Json.noConfusion h)
  | .arr _, .null => isFalse (fun h => Json.noConfusion h)
  | .arr _, .bool _ => isFalse (fun h => Json.noConfusion h)
  | .arr _, .num _ => isFalse (fun h => Json.noConfusion h)
  | .arr _, .str _ => isFalse (fun h => Json.noConfusion h)
  | .arr a, .arr b =>
    match Json.decEqList a b with
    | isTrue h => isTrue (by rw [h])
    | isFalse h => isFalse (fun hh => h (Json.arr.inj hh))
  | .arr _, .obj _ => isFalse (fun h => Json.noConfusion h)
  | .obj _, .null => isFalse (fun h => Json.noConfusion h)
  | .obj _, .bool _ => isFalse (fun h => Json.noConfusion h)
  | .obj _, .num _ => isFalse (fun h => Json.noConfusion h)
  | .obj _, .str _ => isFalse (fun h => Json.noConfusion h)
  | .obj _, .arr _ => isFalse (fun h => Json.noConfusion h)
  | .obj a, .obj b =>
    match Json.decEqFields a b with
    | isTrue h => isTrue (by rw [h])
    | isFalse h => isFalse (fun hh => h (Json.obj.inj hh))

/-- Decidable equality of lists of `Json` values. -/
def Json.decEqList : (a b : List Json) → Decidable (a = b)
  | [], [] => isTrue rfl
  | [], _ :: _ => isFalse (fun h => List.noConfusion h)
  | _ :: _, [] => isFalse (fun h => List.noConfusion h)
  | x :: xs, y :: ys =>
    match Json.decEq x y with
    | isFalse h => isFalse (fun hh => h (List.cons.inj hh).1)
    | isTrue h1 =>
      match Json.decEqList xs ys with
      | isTrue h2 => isTrue (by rw [h1, h2])
      | isFalse h => isFalse (fun hh => h (List.cons.inj hh).2)

/-- Decidable equality of lists of `Json` object fields. -/
def Json.decEqFields : (a b : List (String × Json)) → Decidable (a = b)
  | [], [] => isTrue rfl
  | [], _ :: _ => isFalse (fun h => List.noConfusion h)
  | _ :: _, [] => isFalse (fun h => List.noConfusion h)
  | (k1, v1) :: xs, (k2, v2) :: ys =>
    if hk : k1 = k2 then
      match Json.decEq v1 v2 with
      | isFalse h => isFalse (fun hh => h (congrArg (fun l => (l.headD (k1, v1)).2) hh))
      | isTrue hv =>
        match Json.decEqFields xs ys with
        | isTrue ht => isTrue (by rw [hk, hv, ht])
        | isFalse h => isFalse (fun hh => h (List.cons.inj hh).2)
    else isFalse (fun hh => hk (congrArg (fun l => (l.headD (k1, v1)).1) hh))

end

instance : DecidableEq Json := Json.decEq

/-- EscapeStr escapes quote and backslash characters inside a JSON string
literal. -/
def Json.escapeStr : List Char → String
  | [] => ""
  | c :: cs =>
    (if c == Char.ofNat 34 || c == Char.ofNat 92 then
       String.singleton (Char.ofNat 92) ++ String.singleton c
     else String.singleton c) ++ Json.escapeStr cs

mutual

/-- Stringify models `JSON.stringify` on `Json` values (string escaping is
restricted to the quote and backslash, which is all the development
needs; no claim depends on escaping of control characters). -/
def Json.stringify : Json → String
  | .null => "null"
  | .bool true => "true"
  | .bool false => "false"
  | .num n => toString n
  | .str s => "\"" ++ Json.escapeStr s.toList ++ "\""
  | .arr elems => "[" ++ Json.stringifyList elems ++ "]"
  | .obj fields => "\x7b" ++ Json.stringifyFields fields ++ "\x7d"

/-- StringifyList serializes the comma-separated elements of a JSON
array. -/
def Json.stringifyList : List Json → String
  | [] => ""
  | [x] => Json.stringify x
  | x :: xs => Json.stringify x ++ "," ++ Json.stringifyList xs

/-- StringifyFields serializes the comma-separated `"key":value` members
of a JSON object. -/
def Json.stringifyFields : List (String × Json) → String
  | [] => ""
  | [kv] => "\"" ++ Json.escapeStr kv.1.toList ++ "\":" ++ Json.stringify kv.2
  | kv :: kvs =>
    "\"" ++ Json.escapeStr kv.1.toList ++ "\":" ++ Json.stringify kv.2 ++ ","
      ++ Json.stringifyFields kvs

end

/-- Truthy models JavaScript truthiness of a `Json` value, as used by the
`body ? JSON.stringify(body) : undefined` conditionals in `callApi`
(falsy values: `null`, `false`, `0`, the empty string). -/
def Json.truthy : Json → Bool
  | .null => false
  | .bool b => b
  | .num n => n != 0
  | .str s => !s.isEmpty
  | .arr _ => true
  | .obj _ => true

/-- QueryVal models the value type of a query-parameter entry:
`string | number | boolean | null | undefined`. -/
inductive QueryVal where
  | str (s : String)
  | num (n : Int)
  | bool (b : Bool)
  | null
  | undef
  deriving DecidableEq

/-- ToStr models the JavaScript conversion `String(value)` on a
query-parameter value. -/
def QueryVal.toStr : QueryVal → String
  | .str s => s
  | .num n => toString n
  | .bool true => "true"
  | .bool false => "false"
  | .null => "null"
  | .undef => "undefined"

/-- LeadsWith pat l decides whether `pat` is a prefix of `l` (character
lists). -/
def leadsWith : List Char → List Char → Bool
  | [], _ => true
  | _ :: _, [] => false
  | a :: as, b :: bs => a == b && leadsWith as bs

/-- InfixAt pat l decides whether `pat` occurs contiguously inside `l`. -/
def infixAt (pat : List Char) : List Char → Bool
  | [] => pat.isEmpty
  | b :: bs => leadsWith pat (b :: bs) || infixAt pat bs

/-- StrIncludes models JavaScript `s.includes(pat)`. -/
def strIncludes (s pat : String) : Bool := infixAt pat.toList s.toList

/-- HexDigit renders a number below 16 as an uppercase hexadecimal
digit. -/
def hexDigit (n : Nat) : Char :=
  if n < 10 then Char.ofNat (48 + n) else Char.ofNat (55 + n)

/-- PercentByte renders one byte as a `%XY` percent escape (uppercase
hex), as used by both `encodeURIComponent` and the
`application/x-www-form-urlencoded` serializer. -/
def percentByte (b : Nat) : String :=
  "%" ++ String.singleton (hexDigit (b / 16)) ++ String.singleton (hexDigit (b % 16))

/-- Utf8Bytes gives the UTF-8 encoding of a character as a list of byte
values. -/
def utf8Bytes (c : Char) : List Nat :=
  if c.toNat < 128 then [c.toNat]
  else if c.toNat < 2048 then [192 + c.toNat / 64, 128 + c.toNat % 64]
  else if c.toNat < 65536 then
    [224 + c.toNat / 4096, 128 + (c.toNat / 64) % 64, 128 + c.toNat % 64]
  else
    [240 + c.toNat / 262144, 128 + (c.toNat / 4096) % 64,
     128 + (c.toNat / 64) % 64, 128 + c.toNat % 64]

/-- UriUnreserved holds for the characters `encodeURIComponent` leaves
unescaped: ASCII alphanumerics and `- _ . ! ~ * ' ( )`. -/
def uriUnreserved (c : Char) : Bool :=
  c.isAlphanum || c == Char.ofNat 45 || c == Char.ofNat 95 || c == Char.ofNat 46
    || c == Char.ofNat 33 || c == Char.ofNat 126 || c == Char.ofNat 42
    || c == Char.ofNat 39 || c == Char.ofNat 40 || c == Char.ofNat 41

/-- EncodeURIComponent models the ECMAScript `encodeURIComponent`
builtin: unreserved characters pass through, every other character is
replaced by the percent escapes of its UTF-8 bytes. -/
def encodeURIComponent (s : String) : String :=
  String.join (s.toList.map (fun c =>
    if uriUnreserved c then String.singleton c
    else String.join ((utf8Bytes c).map percentByte)))

/-- FormUrlByteOk holds for the bytes the
`application/x-www-form-urlencoded` serializer emits untouched:
`0x2A 0x2D 0x2E`, digits, ASCII letters and `0x5F`. -/
def formUrlByteOk (b : Nat) : Bool :=
  b == 42 || b == 45 || b == 46 || (48 ≤ b && b ≤ 57)
    || (65 ≤ b && b ≤ 90) || b == 95 || (97 ≤ b && b ≤ 122)

/-- FormUrlEncode models the escaping the WHATWG
`application/x-www-form-urlencoded` serializer applies to one name or
value when `URL.toString()` renders `url.searchParams`: space becomes
`+`, safe bytes pass through, every other byte is percent-escaped. -/
def formUrlEncode (s : String) : String :=
  String.join (((s.toList.map utf8Bytes).flatten).map (fun b =>
    if b == 32 then "+"
    else if formUrlByteOk b then String.singleton (Char.ofNat b)
    else percentByte b))

/-- SerializeQuery renders a `URLSearchParams` entry list as the query
string `URL.toString()` emits (`application/x-www-form-urlencoded`
serialization of the name/value pairs). -/
def serializeQuery (pairs : List (String × String)) : String :=
  String.intercalate "&" (pairs.map (fun p => formUrlEncode p.1 ++ "=" ++ formUrlEncode p.2))

/-- BuiltUrl is the result of `buildUrl`: the target resolved from
`path` against `baseUrl` by the platform `URL` constructor (kept
opaque, as no claim depends on path resolution), together with the
`searchParams` entry list appended by `buildUrl`. -/
structure BuiltUrl where
  baseUrl : String
  path : String
  query : List (String × String)
  deriving DecidableEq

/-- QueryString is the query part of `url.toString()`: the
form-urlencoded serialization of the `searchParams` list. -/
def BuiltUrl.queryString (u : BuiltUrl) : String := serializeQuery u.query

/-- BuildUrlPairs models the `Object.entries(queryParams).forEach` loop
of `buildUrl`: entries whose value is neither `undefined` nor `null`
are appended to `url.searchParams`, with `encodeURIComponent` applied
to key and stringified value unless `skipURIEncoding` is set. -/
def buildUrlPairs (queryParams : List (String × QueryVal))
    (skipURIEncoding : Bool) : List (String × String) :=
  queryParams.foldl (fun acc kv =>
    if kv.2 ≠ QueryVal.undef ∧ kv.2 ≠ QueryVal.null then
      acc ++ [(if skipURIEncoding then kv.1 else encodeURIComponent kv.1,
               if skipURIEncoding then kv.2.toStr else encodeURIComponent kv.2.toStr)]
    else acc) []

/-- BuildUrl models the `buildUrl` helper of callAPI.ts.  The `URL`
resolution of `path` against `baseUrl` is treated as the black-box
platform collaborator (the resolved URL is represented by the pair
itself, starting with an empty query); the query construction is
modelled faithfully. -/
def buildUrl (baseUrl path : String)
    (queryParams : Option (List (String × QueryVal)))
    (skipURIEncoding : Bool := false) : BuiltUrl :=
  { baseUrl := baseUrl
    path := path
    query :=
      match queryParams with
      | none => []
      | some qp => buildUrlPairs qp skipURIEncoding }

/-- HeaderMap models a JavaScript `Record<string, string>` as an
association list in enumeration order. -/
abbrev HeaderMap := List (String × String)

/-- Spread models the JavaScript object spread `{...a, ...b}`: keys of
`a` keep their position but a key also present in `b` takes the value
from `b`; keys only in `b` are appended. -/
def spread (a b : HeaderMap) : HeaderMap :=
  a.map (fun p =>
    match b.lookup p.1 with
    | some v => (p.1, v)
    | none => p)
    ++ b.filter (fun p => (a.lookup p.1).isNone)

/-- DefaultHeaders is the `"Content-Type": "application/json"` literal
both fetches start their header object with. -/
def defaultHeaders : HeaderMap := [("Content-Type", "application/json")]

/-- Decoded is a body decoded by the response processor: a JSON value
(from `response.json()`) or plain text (from `response.text()`). -/
inductive Decoded where
  | json (j : Json)
  | text (s : String)
  deriving DecidableEq

/-- JsError models the JavaScript errors that can cross `callApi`'s
boundary.  `networkError`, `apiResponseError` and `timeoutError` are
the module's three exported error classes; `abortDOMException` is the
platform `DOMException` named "AbortError" raised by an aborted
`fetch`; `nativeFetchError` is the `TypeError` `fetch` rejects with
when the transport fails before a response; `syntaxError` is the
platform error of a failing `response.json()`. -/
inductive JsError where
  | networkError (message : String)
  | apiResponseError (message : String) (statusCode : Nat) (response : Decoded)
  | timeoutError (message : String)
  | abortDOMException
  | nativeFetchError (message : String)
  | syntaxError (message : String)
  deriving DecidableEq

/-- HttpResponse models the platform `Response` object handed to
`processResponse`: the status, the `content-type` header
(`response.headers.get`), and the outcomes of its two body-decode
operations (`jsonBody = none` models a rejecting `response.json()`;
`textBody` is what `response.text()` yields).  The body decoders are
part of the black-box transport collaborator. -/
structure HttpResponse where
  status : Nat
  contentType : Option String
  jsonBody : Option Json
  textBody : String
  deriving DecidableEq

/-- DecodeCount records how many times each body-decode operation ran
while processing one response. -/
structure DecodeCount where
  jsonReads : Nat
  textReads : Nat
  deriving DecidableEq

/-- CtIsJson models `contentType?.includes("application/json")` with an
optional chaining result coerced by truthiness. -/
def ctIsJson : Option String → Bool
  | some s => strIncludes s "application/json"
  | none => false

/-- ProcessResponse models the `processResponse` helper of callAPI.ts.
For a non-ok status (`response.ok` is `200 ≤ status ≤ 299`) it tries
`response.json()`, falls back to `response.text()`, and throws an
`ApiResponseError` carrying the status and the decoded payload.  For an
ok status it returns the JSON body when the content type contains
`application/json`, else the text body (a failing `response.json()` on
this path rejects with the platform `SyntaxError`).  The second
component counts the body-decode operations performed. -/
def processResponse (r : HttpResponse) : Except JsError Decoded × DecodeCount :=
  if r.status < 200 ∨ 299 < r.status then
    match r.jsonBody with
    | some j =>
      (.error (.apiResponseError ("API request failed with status " ++ toString r.status)
        r.status (.json j)), ⟨1, 0⟩)
    | none =>
      (.error (.apiResponseError ("API request failed with status " ++ toString r.status)
        r.status (.text r.textBody)), ⟨1, 1⟩)
  else if ctIsJson r.contentType then
    match r.jsonBody with
    | some j => (.ok (.json j), ⟨1, 0⟩)
    | none => (.error (.syntaxError "Unexpected token"), ⟨1, 0⟩)
  else
    (.ok (.text r.textBody), ⟨0, 1⟩)

/-- DebugFlags are the four independent logging toggles of the `debug`
option (`logUrl`, `logRequest`, `logResponse`, `logData`; an absent
flag behaves as `false` under the `debug.flag && console.debug(...)`
truthiness checks). -/
structure DebugFlags where
  logUrl : Bool
  logRequest : Bool
  logResponse : Bool
  logData : Bool
  deriving DecidableEq

/-- NoDebug is the `debug = {}` destructuring default: every flag
check is falsy. -/
def noDebug : DebugFlags := ⟨false, false, false, false⟩

/-- CommonApiParams models the interface of the same name: `path`,
optional `method`, `headers`, `body`, `queryParams` and
`skipURIEncoding`. -/
structure CommonApiParams where
  path : String
  method : Option String
  headers : Option HeaderMap
  body : Option Json
  queryParams : Option (List (String × QueryVal))
  skipURIEncoding : Option Bool
  deriving DecidableEq

/-- LicenseConfig models `validateLicense : CommonApiParams &
ResponseHandlers`.  The two optional callbacks are opaque observer
functions; the model keeps only whether each is provided (the `?.`
calls fire exactly when they are), and their invocations are recorded
as trace events. -/
structure LicenseConfig extends CommonApiParams where
  hasOnSuccess : Bool
  hasOnError : Bool
  deriving DecidableEq

/-- ApiCallOptions models the options record of `callApi`:
`CommonApiParams` plus `baseUrl`, `debug`, `responseHandlers`
(modelled by the two presence flags, like the license callbacks),
`validateLicense` and `timeout`. -/
structure ApiCallOptions extends CommonApiParams where
  baseUrl : String
  debug : Option DebugFlags
  hasOnSuccess : Bool
  hasOnError : Bool
  validateLicense : Option LicenseConfig
  timeout : Option Nat
  deriving DecidableEq

/-- Request is one outgoing `fetch` call as `callApi` issues it: the
built URL, the method string, the merged header object and the
(optional) serialized body. -/
structure Request where
  url : BuiltUrl
  method : String
  headers : HeaderMap
  body : Option String
  deriving DecidableEq

/-- FetchOutcome is the transport oracle's verdict on one request:
`success r` means a response arrived before the phase's timer fired;
`netFailure` means `fetch` rejected natively (DNS failure, connection
refused, ...) before any response; `hang` means the request never
completed, so the timer fired, `controller.abort()` ran and `fetch`
rejected with the "AbortError" `DOMException`. -/
inductive FetchOutcome where
  | success (r : HttpResponse)
  | netFailure (message : String)
  | hang
  deriving DecidableEq

/-- Event is one observable action of a `callApi` run on the network
or callback channels: a request handed to `fetch`, an abort signal
raised by an elapsed timer, or an invocation of one of the four
optional callbacks. -/
inductive Event where
  | fetched (req : Request)
  | aborted (req : Request)
  | licOnSuccess (d : Decoded)
  | licOnError (e : JsError)
  | mainOnSuccess (d : Decoded)
  | mainOnError (e : JsError)
  deriving DecidableEq

/-- Decidable equality for `Except` values with decidable components. -/
instance {ε α : Type} [DecidableEq ε] [DecidableEq α] : DecidableEq (Except ε α) := fun a b =>
  match a, b with
  | .ok x, .ok y =>
    if h : x = y then isTrue (by rw [h])
    else isFalse (fun hh => h (Except.ok.inj hh))
  | .error x, .error y =>
    if h : x = y then isTrue (by rw [h])
    else isFalse (fun hh => h (Except.error.inj hh))
  | .ok _, .error _ => isFalse (fun h => Except.noConfusion h)
  | .error _, .ok _ => isFalse (fun h => Except.noConfusion h)

/-- CallResult is the full observable outcome of a `callApi` run: the
settled promise (`Except.ok` the returned decoded data, `Except.error`
the raised error), the `trace` of network and callback events in
order, and the `console.debug` lines on the logging sink. -/
structure CallResult where
  result : Except JsError Decoded
  trace : List Event
  logs : List String
  deriving DecidableEq

/-- JsonStringifyBody models `body ? JSON.stringify(body) : undefined`:
an absent or falsy body sends no body content, a truthy one is
JSON-serialized. -/
def jsonStringifyBody : Option Json → Option String
  | some j => if j.truthy then some j.stringify else none
  | none => none

/-- LicenseRequest is the license-phase `fetch` call built by `callApi`
from the options and the license configuration: URL built from the
main `baseUrl` and the license `path`/`queryParams`/`skipURIEncoding`,
method defaulted to `"POST"` by `validateLicense.method || "POST"`,
headers `{"Content-Type": "application/json", ...headers,
...validateLicense.headers}`, and the serialized license body. -/
def licenseRequest (p : ApiCallOptions) (vl : LicenseConfig) : Request :=
  { url := buildUrl p.baseUrl vl.path vl.queryParams (vl.skipURIEncoding.getD false)
    method := vl.method.getD "POST"
    headers := spread (spread defaultHeaders (p.headers.getD [])) (vl.headers.getD [])
    body := jsonStringifyBody vl.body }

/-- MainRequest is the main-phase `fetch` call built by `callApi`: URL
from `baseUrl`/`path`/`queryParams`/`skipURIEncoding`, method
defaulted to `"GET"`, headers `{"Content-Type": "application/json",
...headers}`, and the serialized body. -/
def mainRequest (p : ApiCallOptions) : Request :=
  { url := buildUrl p.baseUrl p.path p.queryParams (p.skipURIEncoding.getD false)
    method := p.method.getD "GET"
    headers := spread defaultHeaders (p.headers.getD [])
    body := jsonStringifyBody p.body }

/-- FetchAndProcess is the error a phase's `await fetch` +
`processResponse` sequence raises, or the decoded data it produces: an
aborted request surfaces as the "AbortError" `DOMException`, a native
transport failure as `fetch`'s own error, and a received response is
handed to `processResponse`. -/
def fetchAndProcess (transport : Request → FetchOutcome) (req : Request) :
    Except JsError Decoded :=
  match transport req with
  | .hang => .error .abortDOMException
  | .netFailure m => .error (.nativeFetchError m)
  | .success r => (processResponse r).1

/-- MainPhaseRun models the main-phase `try/catch` of `callApi`: build
the URL, log per debug flags, fetch with merged headers and serialized
body under the timeout guard, process the response, log response and
data per debug flags, notify `responseHandlers`, and on failure
convert an "AbortError" `DOMException` into a fresh `TimeoutError`
(every other error passes through unchanged) before notifying
`responseHandlers.onError` and re-raising. -/
def mainPhaseRun (p : ApiCallOptions) (transport : Request → FetchOutcome) : CallResult :=
  match transport (mainRequest p) with
  | .hang =>
    { result := .error (.timeoutError "Request timed out")
      trace := [.fetched (mainRequest p), .aborted (mainRequest p)]
        ++ (if p.hasOnError then [.mainOnError (.timeoutError "Request timed out")] else [])
      logs := (if (p.debug.getD noDebug).logUrl then ["API URL:"] else [])
        ++ (if (p.debug.getD noDebug).logRequest then ["API Request Body:"] else []) }
  | .netFailure m =>
    { result := .error (.nativeFetchError m)
      trace := [.fetched (mainRequest p)]
        ++ (if p.hasOnError then [.mainOnError (.nativeFetchError m)] else [])
      logs := (if (p.debug.getD noDebug).logUrl then ["API URL:"] else [])
        ++ (if (p.debug.getD noDebug).logRequest then ["API Request Body:"] else []) }
  | .success r =>
    match (processResponse r).1 with
    | .error e =>
      { result := .error e
        trace := [.fetched (mainRequest p)]
          ++ (if p.hasOnError then [.mainOnError e] else [])
        logs := (if (p.debug.getD noDebug).logUrl then ["API URL:"] else [])
          ++ (if (p.debug.getD noDebug).logRequest then ["API Request Body:"] else []) }
    | .ok d =>
      { result := .ok d
        trace := [.fetched (mainRequest p)]
          ++ (if p.hasOnSuccess then [.mainOnSuccess d] else [])
        logs := (if (p.debug.getD noDebug).logUrl then ["API URL:"] else [])
          ++ (if (p.debug.getD noDebug).logRequest then ["API Request Body:"] else [])
          ++ (if (p.debug.getD noDebug).logResponse then ["API Response:"] else [])
          ++ (if (p.debug.getD noDebug).logData then ["API Response Data:"] else []) }

/-- CallApi models the exported `callApi` entry point against a
transport oracle.  If `validateLicense` is present the license phase
runs first: its URL and request are logged per debug flags, the
request is fetched under the timeout guard and processed; on success
`validateLicense.onSuccess` observes the decoded data and the main
phase runs; on any failure `validateLicense.onError` observes the
error, which is re-raised as caught (an aborted license request
surfaces as the raw "AbortError" `DOMException` — the license phase
has no abort-to-`TimeoutError` conversion), and the main phase is
never entered. -/
def callApi (p : ApiCallOptions) (transport : Request → FetchOutcome) : CallResult :=
  match p.validateLicense with
  | none => mainPhaseRun p transport
  | some vl =>
    match transport (licenseRequest p vl) with
    | .hang =>
      { result := .error .abortDOMException
        trace := [.fetched (licenseRequest p vl), .aborted (licenseRequest p vl)]
          ++ (if vl.hasOnError then [.licOnError .abortDOMException] else [])
        logs := (if (p.debug.getD noDebug).logUrl then ["License validation URL:"] else [])
          ++ (if (p.debug.getD noDebug).logRequest then ["License validation request:"] else []) }
    | .netFailure m =>
      { result := .error (.nativeFetchError m)
        trace := [.fetched (licenseRequest p vl)]
          ++ (if vl.hasOnError then [.licOnError (.nativeFetchError m)] else [])
        logs := (if (p.debug.getD noDebug).logUrl then ["License validation URL:"] else [])
          ++ (if (p.debug.getD noDebug).logRequest then ["License validation request:"] else []) }
    | .success r =>
      match (processResponse r).1 with
      | .error e =>
        { result := .error e
          trace := [.fetched (licenseRequest p vl)]
            ++ (if vl.hasOnError then [.licOnError e] else [])
          logs := (if (p.debug.getD noDebug).logUrl then ["License validation URL:"] else [])
            ++ (if (p.debug.getD noDebug).logRequest then ["License validation request:"] else []) }
      | .ok d =>
        { result := (mainPhaseRun p transport).result
          trace := [.fetched (licenseRequest p vl)]
            ++ (if vl.hasOnSuccess then [.licOnSuccess d] else [])
            ++ (mainPhaseRun p transport).trace
          logs := (if (p.debug.getD noDebug).logUrl then ["License validation URL:"] else [])
            ++ (if (p.debug.getD noDebug).logRequest then ["License validation request:"] else [])
            ++ (mainPhaseRun p transport).logs }

/-- FetchedEvents extracts, in order, the requests a run handed to
`fetch`. -/
def fetchedEvents (trace : List Event) : List Request :=
  trace.filterMap (fun e =>
    match e with
    | .fetched r => some r
    | _ => none)

/-- OFirst x y is x when present, else y: the lookup semantics of a
later-overrides-earlier object merge. -/
def oFirst (x y : Option String) : Option String :=
  match x with
  | some v => some v
  | none => y

/-- Lookup distributes over list append, preferring the first list. -/
theorem lookup_append (l₁ l₂ : HeaderMap) (k : String) :
    (l₁ ++ l₂).lookup k = oFirst (l₁.lookup k) (l₂.lookup k) := by
  induction l₁ with
  | nil => simp [oFirst]
  | cons p l ih =>
    obtain ⟨k1, v1⟩ := p
    by_cases h : k = k1
    · simp [List.lookup, h, oFirst]
    · simp [List.lookup, beq_eq_false_iff_ne.mpr h, ih, oFirst]

/-- Lookup after the value-replacing map in `spread`. -/
theorem lookup_map_over (a b : HeaderMap) (k : String) :
    ((a.map (fun p =>
      match b.lookup p.1 with
      | some v => (p.1, v)
      | none => p)).lookup k)
      = match a.lookup k with
        | none => none
        | some v => some (match b.lookup k with
          | some w => w
          | none => v) := by
  induction a with
  | nil => simp
  | cons p l ih =>
    obtain ⟨k1, v1⟩ := p
    by_cases h : k = k1
    · subst h
      cases hb : b.lookup k <;> simp [List.lookup, hb]
    · cases hb : b.lookup k1 <;>
        simp [List.lookup, hb, beq_eq_false_iff_ne.mpr h, ih]

/-- Lookup after filtering by a predicate that only inspects the key. -/
theorem lookup_filter_keyed (q : String → Bool) (b : HeaderMap) (k : String) :
    ((b.filter (fun p => q p.1)).lookup k) = if q k then b.lookup k else none := by
  induction b with
  | nil => simp
  | cons p l ih =>
    obtain ⟨k1, v1⟩ := p
    by_cases h : k = k1
    · subst h
      by_cases hq : q k
      · simp [List.filter, hq, List.lookup, ih]
      · simp [List.filter, hq, ih]
    · by_cases hq : q k1
      · simp [List.filter, hq, List.lookup, beq_eq_false_iff_ne.mpr h, ih]
      · simp [List.filter, hq, List.lookup, beq_eq_false_iff_ne.mpr h, ih]

/-- Lookup in an object spread `{...a, ...b}`: the entry from `b` wins,
else the entry from `a` is kept. -/
theorem lookup_spread (a b : HeaderMap) (k : String) :
    (spread a b).lookup k = oFirst (b.lookup k) (a.lookup k) := by
  rw [spread, lookup_append, lookup_map_over]
  rw [show (fun p : String × String => (a.lookup p.1).isNone)
        = (fun p => (fun x => (a.lookup x).isNone) p.1) from rfl]
  rw [lookup_filter_keyed (fun x => (a.lookup x).isNone) b k]
  cases ha : a.lookup k <;> cases hb : b.lookup k <;> simp [oFirst, ha, hb]

/-- IsSent holds for the query-parameter values `buildUrl` keeps: those
that are neither `undefined` nor `null`. -/
def QueryVal.isSent : QueryVal → Bool
  | .null => false
  | .undef => false
  | _ => true

/-- EncQP is the encoding `buildUrl` applies to one kept entry:
`encodeURIComponent` on key and stringified value unless
`skipURIEncoding` is set. -/
def encQP (skip : Bool) (kv : String × QueryVal) : String × String :=
  (if skip then kv.1 else encodeURIComponent kv.1,
   if skip then kv.2.toStr else encodeURIComponent kv.2.toStr)

/-- The `buildUrl` query loop, with its accumulator generalized. -/
theorem buildUrlPairs_aux (qp : List (String × QueryVal)) (skip : Bool)
    (acc : List (String × String)) :
    qp.foldl (fun acc kv =>
      if kv.2 ≠ QueryVal.undef ∧ kv.2 ≠ QueryVal.null then
        acc ++ [(if skip then kv.1 else encodeURIComponent kv.1,
                 if skip then kv.2.toStr else encodeURIComponent kv.2.toStr)]
      else acc) acc
      = acc ++ (qp.filter (fun kv => kv.2.isSent)).map (encQP skip) := by
  induction qp generalizing acc with
  | nil => simp
  | cons kv l ih =>
    obtain ⟨k, v⟩ := kv
    cases v <;> simp [List.filter, QueryVal.isSent, encQP, ih]

/-- The pairs `buildUrl` appends to `searchParams` are exactly one pair
per kept entry, in order, encoded by `encQP`. -/
theorem buildUrlPairs_eq (qp : List (String × QueryVal)) (skip : Bool) :
    buildUrlPairs qp skip = (qp.filter (fun kv => kv.2.isSent)).map (encQP skip) := by
  rw [buildUrlPairs, buildUrlPairs_aux]
  simp

theorem mainPhaseRun_congr (p q : ApiCallOptions) (t : Request → FetchOutcome)
    (hreq : mainRequest p = mainRequest q)
    (hers : p.hasOnError = q.hasOnError) (hsuc : p.hasOnSuccess = q.hasOnSuccess) :
    (mainPhaseRun p t).result = (mainPhaseRun q t).result ∧
    (mainPhaseRun p t).trace = (mainPhaseRun q t).trace := by
  unfold mainPhaseRun
  rw [hreq, hers, hsuc]
  cases h : t (mainRequest q) with
  | hang => simp [h]
  | netFailure m => simp [h]
  | success r => cases hpr : (processResponse r).1 <;> simp [h, hpr]

theorem mainPhaseRun_no_lic_events (p : ApiCallOptions) (t : Request → FetchOutcome) :
    (∀ e, Event.licOnError e ∉ (mainPhaseRun p t).trace) ∧
    (∀ d, Event.licOnSuccess d ∉ (mainPhaseRun p t).trace) := by
  unfold mainPhaseRun
  cases h : t (mainRequest p) with
  | hang => cases he : p.hasOnError <;> simp [h, he]
  | netFailure m => cases he : p.hasOnError <;> simp [h, he]
  | success r =>
    cases hpr : (processResponse r).1 with
    | error e => cases he : p.hasOnError <;> simp [h, hpr, he]
    | ok d => cases hs : p.hasOnSuccess <;> simp [h, hpr, hs]

theorem callApi_license_fail (p : ApiCallOptions) (vl : LicenseConfig)
    (t : Request → FetchOutcome) (e : JsError)
    (hvl : p.validateLicense = some vl)
    (he : fetchAndProcess t (licenseRequest p vl) = .error e) :
    (callApi p t).result = .error e
    ∧ fetchedEvents (callApi p t).trace = [licenseRequest p vl]
    ∧ (vl.hasOnError = true → Event.licOnError e ∈ (callApi p t).trace)
    ∧ (∀ e', Event.mainOnError e' ∉ (callApi p t).trace)
    ∧ (∀ d, Event.mainOnSuccess d ∉ (callApi p t).trace) := by
  unfold callApi
  rw [hvl]
  cases ho : t (licenseRequest p vl) with
  | hang =>
    simp [fetchAndProcess, ho] at he
    subst he
    cases hb : vl.hasOnError <;> simp [ho, hb, fetchedEvents]
  | netFailure m =>
    simp [fetchAndProcess, ho] at he
    subst he
    cases hb : vl.hasOnError <;> simp [ho, hb, fetchedEvents]
  | success r =>
    simp only [fetchAndProcess, ho] at he
    cases hb : vl.hasOnError <;> simp [ho, he, hb, fetchedEvents]

theorem callApi_license_ok (p : ApiCallOptions) (vl : LicenseConfig)
    (t : Request → FetchOutcome) (d : Decoded)
    (hvl : p.validateLicense = some vl)
    (hd : fetchAndProcess t (licenseRequest p vl) = .ok d) :
    ∀ e', Event.licOnError e' ∉ (callApi p t).trace := by
  unfold callApi
  rw [hvl]
  cases ho : t (licenseRequest p vl) with
  | hang => simp [fetchAndProcess, ho] at hd
  | netFailure m => simp [fetchAndProcess, ho] at hd
  | success r =>
    simp only [fetchAndProcess, ho] at hd
    intro e'
    cases hs : vl.hasOnSuccess <;>
      simp [ho, hd, hs, (mainPhaseRun_no_lic_events p t).1 e']

theorem callApi_congr (p q : ApiCallOptions) (t : Request → FetchOutcome)
    (hvl : p.validateLicense = q.validateLicense)
    (hlic : ∀ vl, licenseRequest p vl = licenseRequest q vl)
    (hreq : mainRequest p = mainRequest q)
    (hers : p.hasOnError = q.hasOnError) (hsuc : p.hasOnSuccess = q.hasOnSuccess) :
    (callApi p t).result = (callApi q t).result ∧
    (callApi p t).trace = (callApi q t).trace := by
  unfold callApi
  rw [hvl]
  cases hv : q.validateLicense with
  | none => simpa using mainPhaseRun_congr p q t hreq hers hsuc
  | some vl =>
    cases ho : t (licenseRequest q vl) with
    | hang => simp [hlic vl, ho]
    | netFailure m => simp [hlic vl, ho]
    | success r =>
      cases hpr : (processResponse r).1 with
      | error e => simp [hlic vl, ho, hpr]
      | ok d =>
        have h := mainPhaseRun_congr p q t hreq hers hsuc
        simp [hlic vl, ho, hpr, h.1, h.2]

/-- The main phase always hands the main request to `fetch`. -/
theorem mainPhaseRun_fetches (p : ApiCallOptions) (t : Request → FetchOutcome) :
    Event.fetched (mainRequest p) ∈ (mainPhaseRun p t).trace := by
  unfold mainPhaseRun
  cases h : t (mainRequest p) with
  | hang => simp [h]
  | netFailure m => simp [h]
  | success r => cases hpr : (processResponse r).1 <;> simp [h, hpr]

/-- VlKey is a concrete license-validation configuration posting a
license key, with an `onError` observer. -/
def vlKey : LicenseConfig :=
  { path := "/validate-license", method := none, headers := none,
    body := some (Json.obj [("licenseKey", Json.str "KEY")]),
    queryParams := none, skipURIEncoding := none,
    hasOnSuccess := false, hasOnError := true }

/-- CfgLic is a concrete call configuration that performs license
validation before its main request. -/
def cfgLic : ApiCallOptions :=
  { path := "/protected-data", method := some "GET", headers := none, body := none,
    queryParams := none, skipURIEncoding := none,
    baseUrl := "https://api.example.com", debug := none,
    hasOnSuccess := true, hasOnError := true,
    validateLicense := some vlKey, timeout := some 50 }

/-- THang is a transport on which no request completes before the
timer fires: every fetch is aborted. -/
def tHang : Request → FetchOutcome := fun _ => .hang

/-- C1: the claim fails on the code.  For a call configuration with a
license-validation configuration whose license request does not
complete before the timeout, the in-flight request is indeed aborted,
but `callApi` raises the raw "AbortError" `DOMException` (which is
also what the license `onError` callback observes) and not a Timeout
Error: the abort-to-`TimeoutError` conversion exists only in the
main-phase catch block, not in the license-phase one. -/
theorem c1_license_timeout_raises_abort :
    (callApi cfgLic tHang).result = .error JsError.abortDOMException
    ∧ (callApi cfgLic tHang).result ≠ .error (JsError.timeoutError "Request timed out")
    ∧ Event.aborted (licenseRequest cfgLic vlKey) ∈ (callApi cfgLic tHang).trace
    ∧ Event.licOnError JsError.abortDOMException ∈ (callApi cfgLic tHang).trace := by
  decide

/-- CfgBodyZero is a concrete call configuration whose body field is
present and equal to the number `0` (a falsy value). -/
def cfgBodyZero : ApiCallOptions :=
  { path := "/users", method := some "POST", headers := none,
    body := some (Json.num 0), queryParams := none, skipURIEncoding := none,
    baseUrl := "https://api.x.com", debug := none, hasOnSuccess := false,
    hasOnError := false, validateLicense := none, timeout := none }

/-- ROkJson is a 200 response declaring `application/json` and
carrying a JSON array body. -/
def rOkJson : HttpResponse :=
  { status := 200, contentType := some "application/json",
    jsonBody := some (Json.arr [Json.obj [("id", Json.num 1)]]), textBody := "[]" }

/-- TOkJson is a transport answering every request with `rOkJson`. -/
def tOkJson : Request → FetchOutcome := fun _ => .success rOkJson

/-- C2 counterexample: the body field of `cfgBodyZero` is present
(`some 0`) and its JSON serialization is `"0"`, yet the transmitted
main request carries no body at all — `body ? JSON.stringify(body) :
undefined` drops every falsy body, so the claim as stated is false. -/
theorem c2_counterexample :
    cfgBodyZero.body = some (Json.num 0)
    ∧ Json.stringify (Json.num 0) = "0"
    ∧ (mainRequest cfgBodyZero).body = none
    ∧ fetchedEvents (callApi cfgBodyZero tOkJson).trace = [mainRequest cfgBodyZero]
    ∧ (mainRequest cfgBodyZero).body ≠ some "0" := by
  decide

/-- C2 (amended): if the body field is present and truthy, the
transmitted request body equals its JSON serialization, and an absent
body sends no body content; but a present falsy body (`null`, `false`,
`0`, the empty string — exactly the falsy `Json` values) also sends no
body content.  The same holds for the license-validation request's
body. -/
theorem c2_amended_truthy_body (p : ApiCallOptions) (vl : LicenseConfig)
    (t : Request → FetchOutcome) (j : Json)
    (hb : p.body = some j) (hvl : p.validateLicense = none) :
    (j.truthy = true → (mainRequest p).body = some j.stringify)
    ∧ (j.truthy = false → (mainRequest p).body = none)
    ∧ (∀ q : ApiCallOptions, q.body = none → (mainRequest q).body = none)
    ∧ (vl.body = none → (licenseRequest p vl).body = none)
    ∧ (∀ jl, vl.body = some jl → jl.truthy = true →
        (licenseRequest p vl).body = some jl.stringify)
    ∧ (∀ jl, vl.body = some jl → jl.truthy = false → (licenseRequest p vl).body = none)
    ∧ Event.fetched (mainRequest p) ∈ (callApi p t).trace
    ∧ (j.truthy = false ↔
        (j = Json.null ∨ j = Json.bool false ∨ j = Json.num 0 ∨ j = Json.str "")) := by
  refine ⟨?_, ?_, ?_, ?_, ?_, ?_, ?_, ?_⟩
  · intro hj; simp [mainRequest, jsonStringifyBody, hb, hj]
  · intro hj; simp [mainRequest, jsonStringifyBody, hb, hj]
  · intro q hq; simp [mainRequest, jsonStringifyBody, hq]
  · intro hq; simp [licenseRequest, jsonStringifyBody, hq]
  · intro jl hq hj; simp [licenseRequest, jsonStringifyBody, hq, hj]
  · intro jl hq hj; simp [licenseRequest, jsonStringifyBody, hq, hj]
  · unfold callApi
    simp only [hvl]
    exact mainPhaseRun_fetches p t
  · cases j <;> simp [Json.truthy, String.isEmpty_iff]

/-- Witness for C2 (amended) at the concrete falsy body `0`. -/
theorem c2_amended_witness :
    (mainRequest cfgBodyZero).body = none :=
  (c2_amended_truthy_body cfgBodyZero vlKey tOkJson (Json.num 0) rfl rfl).2.1 rfl

/-- TRefused is a transport failing natively before any response,
the way `fetch` rejects with a `TypeError` on DNS failure or a refused
connection. -/
def tRefused : Request → FetchOutcome := fun _ => .netFailure "Failed to fetch"

/-- CfgPlain is a minimal call configuration without license
validation. -/
def cfgPlain : ApiCallOptions :=
  { path := "/users", method := some "GET", headers := none, body := none,
    queryParams := none, skipURIEncoding := none, baseUrl := "https://api.x.com",
    debug := none, hasOnSuccess := false, hasOnError := false,
    validateLicense := none, timeout := none }

/-- C3: the claim fails on the code.  When the transport fails before
any response, `callApi` re-raises the transport's own error unchanged
(`fetch`'s native `TypeError`), not a `NetworkError`: the exported
`NetworkError` class is never constructed anywhere in the module.  The
raised error is still not of the Response Error or Timeout Error
kinds. -/
theorem c3_transport_failure_passthrough :
    (callApi cfgPlain tRefused).result = .error (JsError.nativeFetchError "Failed to fetch")
    ∧ (callApi cfgPlain tRefused).result ≠ .error (JsError.networkError "Failed to fetch")
    ∧ (callApi cfgPlain tRefused).result ≠ .error (JsError.timeoutError "Request timed out")
    ∧ (callApi cfgPlain tRefused).result
        ≠ .error (JsError.apiResponseError "Failed to fetch" 0 (Decoded.text "")) := by
  decide

/-- C4 counterexample: for the entry `"a b" = "c"` with
`skipEncoding` false the built URL's query string is `a%2520b=c`, not
the single-component-encoding `a%20b=c` the claim requires —
`url.searchParams` re-escapes the percent sign of the already-encoded
key; and with `skipEncoding` true it is `a+b=c`, not the verbatim
`a b=c`. -/
theorem c4_counterexample :
    (buildUrl "https://api.x.com" "/users" (some [("a b", QueryVal.str "c")]) false).queryString
      = "a%2520b=c"
    ∧ encodeURIComponent "a b" ++ "=" ++ encodeURIComponent "c" = "a%20b=c"
    ∧ ("a%2520b=c" : String) ≠ "a%20b=c"
    ∧ (buildUrl "https://api.x.com" "/users" (some [("a b", QueryVal.str "c")]) true).queryString
        = "a+b=c"
    ∧ ("a+b=c" : String) ≠ "a b=c" := by
  decide

/-- C4 (amended): the query of the built URL contains exactly one
name/value pair per entry whose value is neither absent nor null, in
order; when `skipEncoding` is false each pair is first passed through
`encodeURIComponent`, and the query string rendered by `URL.toString`
then applies the `application/x-www-form-urlencoded` escaping on top
of it (so reserved characters are effectively encoded twice); when
`skipEncoding` is true the pairs are inserted without component
encoding but still receive the form-urlencoded escaping (space becomes
`+`), not verbatim. -/
theorem c4_amended_query_encoding (base path : String)
    (qp : List (String × QueryVal)) (skip : Bool) :
    (buildUrl base path (some qp) skip).query
      = (qp.filter (fun kv => kv.2.isSent)).map (encQP skip)
    ∧ (buildUrl base path (some qp) skip).queryString
      = serializeQuery ((qp.filter (fun kv => kv.2.isSent)).map (encQP skip))
    ∧ (buildUrl base path none skip).query = [] := by
  refine ⟨?_, ?_, rfl⟩ <;> simp [buildUrl, BuiltUrl.queryString, buildUrlPairs_eq]

/-- C5: for every response whose status lies outside the 200–299
success range, `callApi` raises an `ApiResponseError` whose
`statusCode` equals the response status and whose payload is the JSON
body when `response.json()` succeeds, else the text body — JSON is
attempted first, text only as fallback. -/
theorem c5_response_error (p : ApiCallOptions) (t : Request → FetchOutcome)
    (r : HttpResponse)
    (hvl : p.validateLicense = none)
    (ht : t (mainRequest p) = .success r)
    (hs : r.status < 200 ∨ 299 < r.status) :
    (callApi p t).result
      = .error (.apiResponseError ("API request failed with status " ++ toString r.status)
          r.status
          (match r.jsonBody with
           | some j => Decoded.json j
           | none => Decoded.text r.textBody)) := by
  have hpr : (processResponse r).1
      = .error (.apiResponseError ("API request failed with status " ++ toString r.status)
          r.status
          (match r.jsonBody with
           | some j => Decoded.json j
           | none => Decoded.text r.textBody)) := by
    rw [processResponse, if_pos hs]
    cases hj : r.jsonBody <;> simp [hj]
  unfold callApi mainPhaseRun
  simp [hvl, ht, hpr]

/-- R404 is a 404 response with the JSON body
`\x7b"error":"not found"\x7d`. -/
def r404 : HttpResponse :=
  { status := 404, contentType := some "application/json",
    jsonBody := some (Json.obj [("error", Json.str "not found")]),
    textBody := "" }

/-- T404 is a transport answering every request with `r404`. -/
def t404 : Request → FetchOutcome := fun _ => .success r404

/-- Witness for C5 at a concrete 404 response with a JSON error
body. -/
theorem c5_witness :
    (callApi cfgPlain t404).result
      = .error (.apiResponseError "API request failed with status 404" 404
          (Decoded.json (Json.obj [("error", Json.str "not found")]))) := by
  exact c5_response_error cfgPlain t404 r404 rfl rfl (by decide)

/-- C6: for every response whose status lies in the 200–299 success
range, `callApi` returns the JSON-parsed body when the declared
content type contains `application/json` and the raw text body
otherwise, and on this success path the body is decoded exactly once
(one `json()` read or one `text()` read, never both). -/
theorem c6_success_decode (p : ApiCallOptions) (t : Request → FetchOutcome)
    (r : HttpResponse)
    (hvl : p.validateLicense = none)
    (ht : t (mainRequest p) = .success r)
    (hs : 200 ≤ r.status ∧ r.status ≤ 299) :
    (∀ j, ctIsJson r.contentType = true → r.jsonBody = some j →
        (callApi p t).result = .ok (.json j))
    ∧ (ctIsJson r.contentType = false → (callApi p t).result = .ok (.text r.textBody))
    ∧ (processResponse r).2.jsonReads + (processResponse r).2.textReads = 1 := by
  have hok : ¬(r.status < 200 ∨ 299 < r.status) := by omega
  refine ⟨?_, ?_, ?_⟩
  · intro j hct hj
    have hpr : (processResponse r).1 = .ok (.json j) := by
      rw [processResponse, if_neg hok]
      simp [hct, hj]
    unfold callApi mainPhaseRun
    simp [hvl, ht, hpr]
  · intro hct
    have hpr : (processResponse r).1 = .ok (.text r.textBody) := by
      rw [processResponse, if_neg hok]
      simp [hct]
    unfold callApi mainPhaseRun
    simp [hvl, ht, hpr]
  · rw [processResponse, if_neg hok]
    cases hct : ctIsJson r.contentType
    · simp [hct]
    · cases hj : r.jsonBody <;> simp [hct, hj]

/-- Witness for C6 at a concrete 200 JSON response. -/
theorem c6_witness :
    (callApi cfgPlain tOkJson).result
      = .ok (.json (Json.arr [Json.obj [("id", Json.num 1)]])) :=
  (c6_success_decode cfgPlain tOkJson rOkJson rfl rfl (by decide)).1
    (Json.arr [Json.obj [("id", Json.num 1)]]) rfl rfl

/-- C7: whenever the license phase fails, with any error, the error
is what `callApi` raises, the only request ever handed to `fetch` is
the license request (the main request is never issued), and the
license `onError` callback, when provided, observes the error. -/
theorem c7_license_failure_gates (p : ApiCallOptions) (vl : LicenseConfig)
    (t : Request → FetchOutcome) (e : JsError)
    (hvl : p.validateLicense = some vl)
    (he : fetchAndProcess t (licenseRequest p vl) = .error e) :
    (callApi p t).result = .error e
    ∧ fetchedEvents (callApi p t).trace = [licenseRequest p vl]
    ∧ (vl.hasOnError = true → Event.licOnError e ∈ (callApi p t).trace) := by
  have h := callApi_license_fail p vl t e hvl he
  exact ⟨h.1, h.2.1, h.2.2.1⟩

/-- Witness for C7 on a hanging license request. -/
theorem c7_witness :
    (callApi cfgLic tHang).result = Except.error JsError.abortDOMException
    ∧ fetchedEvents (callApi cfgLic tHang).trace = [licenseRequest cfgLic vlKey]
    ∧ Event.licOnError JsError.abortDOMException ∈ (callApi cfgLic tHang).trace := by
  have h := c7_license_failure_gates cfgLic vlKey tHang JsError.abortDOMException rfl rfl
  exact ⟨h.1, h.2.1, h.2.2 rfl⟩

/-- C8: the license request's headers are the merge of the default
`Content-Type: application/json`, then the main call's headers, then
the license configuration's own headers, later entries overriding
earlier ones; the main request's headers are the merge of the default
with the caller's headers, caller's headers winning; in particular the
`Content-Type` of the main request is the caller's when given and
`application/json` otherwise, so it is present on every outgoing
request. -/
theorem c8_header_merge (p : ApiCallOptions) (vl : LicenseConfig) (k : String) :
    (licenseRequest p vl).headers.lookup k
      = oFirst ((vl.headers.getD []).lookup k)
          (oFirst ((p.headers.getD []).lookup k) (defaultHeaders.lookup k))
    ∧ (mainRequest p).headers.lookup k
      = oFirst ((p.headers.getD []).lookup k) (defaultHeaders.lookup k)
    ∧ (mainRequest p).headers.lookup "Content-Type"
      = oFirst ((p.headers.getD []).lookup "Content-Type") (some "application/json")
    ∧ (licenseRequest p vl).headers.lookup "Content-Type"
      = oFirst ((vl.headers.getD []).lookup "Content-Type")
          (oFirst ((p.headers.getD []).lookup "Content-Type") (some "application/json")) := by
  have hd : defaultHeaders.lookup "Content-Type" = some "application/json" := by decide
  refine ⟨?_, ?_, ?_, ?_⟩
  · show (spread (spread defaultHeaders (p.headers.getD [])) (vl.headers.getD [])).lookup k = _
    rw [lookup_spread, lookup_spread]
  · show (spread defaultHeaders (p.headers.getD [])).lookup k = _
    rw [lookup_spread]
  · show (spread defaultHeaders (p.headers.getD [])).lookup "Content-Type" = _
    rw [lookup_spread, hd]
  · show (spread (spread defaultHeaders (p.headers.getD []))
        (vl.headers.getD [])).lookup "Content-Type" = _
    rw [lookup_spread, lookup_spread, hd]

/-- C9: for every call configuration and transport, the result and
the network/callback trace of `callApi` are identical for any two
settings of the four debug flags (hence across all sixteen
combinations): debug logging only affects the console channel. -/
theorem c9_debug_invariance (p : ApiCallOptions) (t : Request → FetchOutcome)
    (d₁ d₂ : DebugFlags) :
    (callApi { p with debug := some d₁ } t).result
      = (callApi { p with debug := some d₂ } t).result
    ∧ (callApi { p with debug := some d₁ } t).trace
      = (callApi { p with debug := some d₂ } t).trace :=
  callApi_congr _ _ t rfl (fun _ => rfl) rfl rfl rfl

/-- C10: when the license phase fails, the top-level
`responseHandlers` callbacks are never invoked (no main-phase callback
event exists in the trace); and when the license phase succeeds, the
license `onError` callback is never invoked, in particular not by a
main-phase failure. -/
theorem c10_callback_isolation (p : ApiCallOptions) (vl : LicenseConfig)
    (t : Request → FetchOutcome)
    (hvl : p.validateLicense = some vl) :
    (∀ e, fetchAndProcess t (licenseRequest p vl) = .error e →
       (∀ e', Event.mainOnError e' ∉ (callApi p t).trace)
       ∧ (∀ d, Event.mainOnSuccess d ∉ (callApi p t).trace))
    ∧ (∀ d, fetchAndProcess t (licenseRequest p vl) = .ok d →
       ∀ e', Event.licOnError e' ∉ (callApi p t).trace) := by
  constructor
  · intro e he
    have h := callApi_license_fail p vl t e hvl he
    exact ⟨h.2.2.2.1, h.2.2.2.2⟩
  · intro d hd
    exact callApi_license_ok p vl t d hvl hd

/-- Witness for C10 on a hanging license request: the top-level
onError never observes the license error. -/
theorem c10_witness :
    Event.mainOnError JsError.abortDOMException ∉ (callApi cfgLic tHang).trace :=
  ((c10_callback_isolation cfgLic vlKey tHang rfl).1 JsError.abortDOMException rfl).1
    JsError.abortDOMException

end CallAPI
